import Mathlib

/-!
Verification of the perturbation-based detection pipeline of
`detect_chatgpt.py`: the likelihood aggregation loop `query_lls` and the
classification function `run_perturbation_experiment`, together with the
collaborators the specification describes (the Likelihood Querier, the
Perturber and the ROC/PR metric computations, whose files are not part of
the sources and are therefore modelled from the specification where
noted).  Log-likelihood values are embedded as rationals.
-/

/-- Mean of a list of rationals, embedding `numpy.mean` on nonempty input
(on an empty list NumPy yields NaN, which has no rational counterpart;
theorems that depend on the value of a mean restrict to nonempty score
lists). -/
def npMean (l : List ℚ) : ℚ := l.sum / l.length

/-- Population variance, the mean of the squared deviations from the
mean: the quantity whose square root `numpy.std` returns under its
default `ddof = 0`. -/
def popVar (l : List ℚ) : ℚ :=
  npMean (l.map (fun x => (x - npMean l) * (x - npMean l)))

/-- Embedding of `numpy.std` with its default `ddof = 0`: the nonnegative
square root of the population variance, realised over ℚ by `Rat.sqrt`,
which agrees with the real square root on every perfect-square variance
and is zero exactly on variance zero. -/
def npStd (l : List ℚ) : ℚ := Rat.sqrt (popVar l)

/-- Follows the specification's words, for comparison with the code: the
sample variance, the square of the sample standard deviation with the
unbiased `n - 1` denominator that the spec prescribes for the `_std`
fields of a Result Record. -/
def sampleVar (l : List ℚ) : ℚ :=
  (l.map (fun x => (x - npMean l) * (x - npMean l))).sum / ((l.length : ℚ) - 1)

/-- The texts of one result dict before `query_lls` adds the
log-likelihood keys: the original passage, the sampled passage and the
perturbed versions of each. -/
structure InputRecord where
  original : String
  sampled : String
  perturbed_original : List String
  perturbed_sampled : List String
  deriving DecidableEq

/-- One result dict after `query_lls` has attached every derived key
(src/detect_chatgpt.py lines 78-84): the texts together with the scalar
log-likelihoods, the per-perturbation score sequences, their means and
their standard deviations. -/
structure Record where
  original : String
  sampled : String
  perturbed_original : List String
  perturbed_sampled : List String
  original_ll : ℚ
  sampled_ll : ℚ
  all_perturbed_original_ll : List ℚ
  all_perturbed_sampled_ll : List ℚ
  perturbed_original_ll : ℚ
  perturbed_sampled_ll : ℚ
  perturbed_original_ll_std : ℚ
  perturbed_sampled_ll_std : ℚ
  deriving DecidableEq

/-- Modelled from the spec: `query_probabilities.get_lls` (the file
`query_probabilities.py` is not under `src/`).  Per spec 4.1 the
Likelihood Querier scores one text and fails with `QueryError` on a
backend failure, so a scorer is a function `String → Option ℚ` with
`none` standing for a raised `QueryError`; `get_lls` scores a sequence of
texts in order and the first failure propagates. -/
def getLls (ll : String → Option ℚ) : List String → Option (List ℚ)
  | [] => some []
  | t :: ts => do
    let x ← ll t
    let xs ← getLls ll ts
    pure (x :: xs)

/-- Body of the `query_lls` loop (src/detect_chatgpt.py lines 87-97) for
one result dict: score the two perturbation sets and then both passages,
in the source's order, and attach the derived keys.  The loop body has no
exception handling, so a `QueryError` (`none`) from any single text
aborts the whole record. -/
def queryLlsRecord (ll : String → Option ℚ) (res : InputRecord) : Option Record := do
  let p_sampled_ll ← getLls ll res.perturbed_sampled
  let p_original_ll ← getLls ll res.perturbed_original
  let original_ll ← ll res.original
  let sampled_ll ← ll res.sampled
  pure
    { original := res.original
      sampled := res.sampled
      perturbed_original := res.perturbed_original
      perturbed_sampled := res.perturbed_sampled
      original_ll := original_ll
      sampled_ll := sampled_ll
      all_perturbed_original_ll := p_original_ll
      all_perturbed_sampled_ll := p_sampled_ll
      perturbed_original_ll := npMean p_original_ll
      perturbed_sampled_ll := npMean p_sampled_ll
      perturbed_original_ll_std :=
        if 1 < p_original_ll.length then npStd p_original_ll else 1
      perturbed_sampled_ll_std :=
        if 1 < p_sampled_ll.length then npStd p_sampled_ll else 1 }

/-- Embedding of `query_lls` (src/detect_chatgpt.py lines 68-102): the
aggregation loop over the result dicts, in order.  The loop has no
exception handling, so the first failing record aborts the whole call and
nothing is returned for the remaining records. -/
def queryLls (ll : String → Option ℚ) : List InputRecord → Option (List Record)
  | [] => some []
  | res :: rest => do
    let r ← queryLlsRecord ll res
    let rs ← queryLls ll rest
    pure (r :: rs)

/-- Hyperparameter bundle handed to `run_perturbation_experiment`
(src/detect_chatgpt.py lines 192-197). -/
structure Hyperparameters where
  n_perturbations : Nat
  span_length : Nat
  perturb_pct : ℚ
  n_perturbation_rounds : Nat
  deriving DecidableEq

/-- The two prediction populations built by the classification loop
(src/detect_chatgpt.py line 122). -/
structure Predictions where
  real : List ℚ
  samples : List ℚ
  deriving DecidableEq

/-- Return shape of `evaluation.get_roc_metrics`. -/
structure RocMetrics where
  fpr : List ℚ
  tpr : List ℚ
  roc_auc : ℚ
  deriving DecidableEq

/-- Return shape of `evaluation.get_precision_recall_metrics`;
`precisionSeq` and `recallSeq` are the precision and recall sequences. -/
structure PrMetrics where
  precisionSeq : List ℚ
  recallSeq : List ℚ
  pr_auc : ℚ
  deriving DecidableEq

/-- The experiment outcome dict returned by `run_perturbation_experiment`
(src/detect_chatgpt.py lines 147-163). -/
structure Outcome where
  name : String
  predictions : Predictions
  info : Hyperparameters
  raw_results : List Record
  metrics : RocMetrics
  pr_metrics : PrMetrics
  loss : ℚ
  deriving DecidableEq

/-- The in-place std flooring of the z-score branch
(src/detect_chatgpt.py lines 130-138): a zero `perturbed_*_ll_std` field
of the record itself is overwritten with 1 before the prediction is
computed, and the record stays mutated afterwards. -/
def floorStds (res : Record) : Record :=
  { res with
    perturbed_original_ll_std :=
      if res.perturbed_original_ll_std = 0 then 1 else res.perturbed_original_ll_std
    perturbed_sampled_ll_std :=
      if res.perturbed_sampled_ll_std = 0 then 1 else res.perturbed_sampled_ll_std }

/-- The prediction loop of `run_perturbation_experiment`
(src/detect_chatgpt.py lines 122-141): per record, the difference
criterion appends `original_ll - perturbed_original_ll` to the real
population and the sampled analogue to the samples population; the
z-score criterion first floors the record's zero std fields in place and
then appends the quotients.  The pair returned is the predictions dict
together with the records as they stand after the loop (the mutated list
is what the outcome later exposes as `raw_results`).  A criterion other
than d and z matches neither branch: nothing is appended and nothing is
touched. -/
def classifyRecords (criterion : String) (results : List Record) :
    Predictions × List Record :=
  if criterion = "d" then
    (⟨results.map (fun res => res.original_ll - res.perturbed_original_ll),
      results.map (fun res => res.sampled_ll - res.perturbed_sampled_ll)⟩,
     results)
  else if criterion = "z" then
    let updated := results.map floorStds
    (⟨updated.map (fun res =>
        (res.original_ll - res.perturbed_original_ll) / res.perturbed_original_ll_std),
      updated.map (fun res =>
        (res.sampled_ll - res.perturbed_sampled_ll) / res.perturbed_sampled_ll_std)⟩,
     updated)
  else (⟨[], []⟩, results)

/-- Embedding of `run_perturbation_experiment`
(src/detect_chatgpt.py lines 105-163).  The two metric computations live
in `evaluation.py`, which is not part of the sources; per spec 4.4 they
deterministically reduce the two prediction populations to ROC and
precision-recall metrics, so they enter as function parameters. -/
def runPerturbationExperiment
    (getRocMetrics : List ℚ → List ℚ → RocMetrics)
    (getPrecisionRecallMetrics : List ℚ → List ℚ → PrMetrics)
    (results : List Record) (criterion : String)
    (hyperparameters : Hyperparameters) (dataset : String) : Outcome :=
  let cls := classifyRecords criterion results
  let m := getRocMetrics cls.1.real cls.1.samples
  let pm := getPrecisionRecallMetrics cls.1.real cls.1.samples
  { name := dataset ++ "_" ++ (if criterion = "d" then "difference" else "z-score")
      ++ "_" ++ toString hyperparameters.n_perturbations
      ++ "_" ++ toString hyperparameters.perturb_pct ++ "."
    predictions := cls.1
    info := hyperparameters
    raw_results := cls.2
    metrics := m
    pr_metrics := pm
    loss := 1 - pm.pr_auc }

/-- Modelled from the spec: one variant of the Perturber (`perturb.py` is
not under `src/`, spec 4.2).  A masking and infill round for a variant
either produces a filled text or fails the validity check (the number of
distinct fill tokens must equal the number of masks requested), so a
round is an `Option String`, with `round r` the outcome of round `r`.
Up to `n_rounds` independent rounds are attempted in order and the first
successful one supplies the variant; if all rounds fail the variant falls
back to the original unmasked passage. -/
def perturbVariant (passage : String) (round : Nat → Option String)
    (n_rounds : Nat) : String :=
  match (List.range n_rounds).findSome? round with
  | some filled => filled
  | none => passage

/-- Modelled from the spec: the Perturber produces exactly `n_variants`
entries per passage, each variant obtained from its own independent
masking and infill rounds (spec 4.2); `attempt v r` is the outcome of
round `r` for variant `v`. -/
def perturbPassage (passage : String) (attempt : Nat → Nat → Option String)
    (n_variants n_rounds : Nat) : List String :=
  (List.range n_variants).map (fun v => perturbVariant passage (attempt v) n_rounds)

/-- A scorer that always succeeds, assigning log-likelihood 5 to every
text. -/
def llConstFive : String → Option ℚ := fun _ => some 5

/-- A scorer that always succeeds, assigning log-likelihood 0 to every
text. -/
def llConstZero : String → Option ℚ := fun _ => some 0

/-- A scorer that raises `QueryError` on the text "bad" and scores every
other text 1. -/
def llFailBad : String → Option ℚ := fun t => if t = "bad" then none else some 1

/-- A scorer assigning 0 to the text "a" and 2 to every other text. -/
def llZeroTwo : String → Option ℚ := fun t => if t = "a" then some 0 else some 2

/-- Degenerate stand-in for `evaluation.get_roc_metrics` in concrete
instantiations. -/
def rocZero : List ℚ → List ℚ → RocMetrics := fun _ _ => ⟨[], [], 0⟩

/-- Degenerate stand-in for `evaluation.get_precision_recall_metrics` in
concrete instantiations. -/
def prZero : List ℚ → List ℚ → PrMetrics := fun _ _ => ⟨[], [], 0⟩

/-- The default hyperparameters of the command line (lines 176-179). -/
def hpDefault : Hyperparameters := ⟨5, 2, 3 / 20, 1⟩

/-- Input record whose two perturbation sets repeat one text twice, so
that both score sequences are constant of length 2. -/
def inputTwin : InputRecord := ⟨"a", "a", ["a", "a"], ["a", "a"]⟩

/-- The record `query_lls` produces from `inputTwin` under
`llConstFive`: both score sequences are `[5, 5]`, with mean 5 and
population standard deviation 0. -/
def recTwin : Record :=
  ⟨"a", "a", ["a", "a"], ["a", "a"], 5, 5, [5, 5], [5, 5], 5, 5, 0, 0⟩

/-- Input record whose first text fails the Querier. -/
def inputBad : InputRecord := ⟨"bad", "ok", ["ok"], ["ok"]⟩

/-- Input record every text of which the Querier scores. -/
def inputGood : InputRecord := ⟨"ok", "ok", ["ok"], ["ok"]⟩

/-- The record `query_lls` produces from `inputGood` under `llFailBad`. -/
def recGood : Record := ⟨"ok", "ok", ["ok"], ["ok"], 1, 1, [1], [1], 1, 1, 1, 1⟩

/-- Input record with singleton perturbation sets. -/
def inputSingle : InputRecord := ⟨"a", "a", ["a"], ["a"]⟩

/-- The record `query_lls` produces from `inputSingle` under
`llConstZero`: singleton score sequences, so both std fields are set to
1 by the length guard. -/
def recSingle : Record := ⟨"a", "a", ["a"], ["a"], 0, 0, [0], [0], 0, 0, 1, 1⟩

/-- Input record whose perturbation sets are two distinct texts. -/
def inputSpread : InputRecord := ⟨"a", "a", ["a", "b"], ["a", "b"]⟩

/-- The record `query_lls` produces from `inputSpread` under `llZeroTwo`:
score sequences `[0, 2]`, mean 1, population variance 1, population
standard deviation 1 (while the sample variance is 2). -/
def recSpread : Record :=
  ⟨"a", "a", ["a", "b"], ["a", "b"], 0, 0, [0, 2], [0, 2], 1, 1, 1, 1⟩

theorem rat_sqrt_zero : Rat.sqrt 0 = 0 := by
  have h := Rat.sqrt_eq 0
  rw [mul_zero, abs_zero] at h
  exact h

theorem rat_sqrt_of_mul_self (s q : ℚ) (hs : 0 ≤ s) (h : s * s = q) :
    Rat.sqrt q = s := by
  rw [← h, Rat.sqrt_eq, abs_of_nonneg hs]

theorem npStd_of_popVar_eq_zero (l : List ℚ) (h : popVar l = 0) : npStd l = 0 := by
  rw [npStd, h, rat_sqrt_zero]

theorem npStd_of_sq (l : List ℚ) (s : ℚ) (hs : 0 ≤ s) (h : s * s = popVar l) :
    npStd l = s := by
  rw [npStd, rat_sqrt_of_mul_self s _ hs h]

theorem getLls_eq_none (ll : String → Option ℚ) (ts : List String) (t : String)
    (ht : t ∈ ts) (hfail : ll t = none) : getLls ll ts = none := by
  induction ts with
  | nil => cases ht
  | cons s rest ih =>
    rcases List.mem_cons.mp ht with h | h
    · subst h
      simp [getLls, hfail]
    · cases hs : ll s with
      | none => simp [getLls, hs]
      | some x => simp [getLls, hs, ih h]

theorem queryLlsRecord_eq_none (ll : String → Option ℚ) (res : InputRecord)
    (t : String)
    (ht : t = res.original ∨ t = res.sampled
      ∨ t ∈ res.perturbed_original ∨ t ∈ res.perturbed_sampled)
    (hfail : ll t = none) : queryLlsRecord ll res = none := by
  rcases ht with h | h | h | h
  · subst h
    cases h1 : getLls ll res.perturbed_sampled <;>
      cases h2 : getLls ll res.perturbed_original <;>
        simp [queryLlsRecord, h1, h2, hfail]
  · subst h
    cases h1 : getLls ll res.perturbed_sampled <;>
      cases h2 : getLls ll res.perturbed_original <;>
        cases h3 : ll res.original <;>
          simp [queryLlsRecord, h1, h2, h3, hfail]
  · have hlls := getLls_eq_none ll res.perturbed_original t h hfail
    cases h1 : getLls ll res.perturbed_sampled <;>
      simp [queryLlsRecord, h1, hlls]
  · have hlls := getLls_eq_none ll res.perturbed_sampled t h hfail
    simp [queryLlsRecord, hlls]

theorem queryLls_eq_none (ll : String → Option ℚ) (results : List InputRecord)
    (res : InputRecord) (hres : res ∈ results)
    (hnone : queryLlsRecord ll res = none) : queryLls ll results = none := by
  induction results with
  | nil => cases hres
  | cons a rest ih =>
    rcases List.mem_cons.mp hres with h | h
    · subst h
      simp [queryLls, hnone]
    · cases ha : queryLlsRecord ll a with
      | none => simp [queryLls, ha]
      | some r => simp [queryLls, ha, ih h]

theorem queryLls_mem (ll : String → Option ℚ) (results : List InputRecord)
    (records : List Record) (h : queryLls ll results = some records)
    (r : Record) (hr : r ∈ records) :
    ∃ res : InputRecord, queryLlsRecord ll res = some r := by
  induction results generalizing records with
  | nil =>
    simp [queryLls] at h
    subst h
    cases hr
  | cons a rest ih =>
    cases ha : queryLlsRecord ll a with
    | none => simp [queryLls, ha] at h
    | some r0 =>
      cases hrest : queryLls ll rest with
      | none => simp [queryLls, ha, hrest] at h
      | some rs =>
        simp [queryLls, ha, hrest] at h
        subst h
        rcases List.mem_cons.mp hr with hm | hm
        · subst hm
          exact ⟨a, ha⟩
        · exact ih rs hrest hm

theorem queryLlsRecord_fields (ll : String → Option ℚ) (res : InputRecord)
    (r : Record) (h : queryLlsRecord ll res = some r) :
    r.perturbed_original_ll = npMean r.all_perturbed_original_ll
    ∧ r.perturbed_sampled_ll = npMean r.all_perturbed_sampled_ll
    ∧ r.perturbed_original_ll_std =
        (if 1 < r.all_perturbed_original_ll.length
          then npStd r.all_perturbed_original_ll else 1)
    ∧ r.perturbed_sampled_ll_std =
        (if 1 < r.all_perturbed_sampled_ll.length
          then npStd r.all_perturbed_sampled_ll else 1) := by
  cases h1 : getLls ll res.perturbed_sampled with
  | none => simp [queryLlsRecord, h1] at h
  | some ps =>
    cases h2 : getLls ll res.perturbed_original with
    | none => simp [queryLlsRecord, h1, h2] at h
    | some po =>
      cases h3 : ll res.original with
      | none => simp [queryLlsRecord, h1, h2, h3] at h
      | some o =>
        cases h4 : ll res.sampled with
        | none => simp [queryLlsRecord, h1, h2, h3, h4] at h
        | some s =>
          rw [queryLlsRecord] at h
          simp only [h1, h2, h3, h4, Option.bind_eq_bind, Option.some_bind,
            Option.pure_def, Option.some.injEq] at h
          subst h
          exact ⟨rfl, rfl, rfl, rfl⟩

theorem floorStds_proj (r : Record) :
    (floorStds r).original_ll = r.original_ll
    ∧ (floorStds r).sampled_ll = r.sampled_ll
    ∧ (floorStds r).all_perturbed_original_ll = r.all_perturbed_original_ll
    ∧ (floorStds r).all_perturbed_sampled_ll = r.all_perturbed_sampled_ll
    ∧ (floorStds r).perturbed_original_ll = r.perturbed_original_ll
    ∧ (floorStds r).perturbed_sampled_ll = r.perturbed_sampled_ll
    ∧ (floorStds r).perturbed_original_ll_std =
        (if r.perturbed_original_ll_std = 0 then 1 else r.perturbed_original_ll_std)
    ∧ (floorStds r).perturbed_sampled_ll_std =
        (if r.perturbed_sampled_ll_std = 0 then 1 else r.perturbed_sampled_ll_std) := by
  simp [floorStds]

theorem floorStds_std_ne_zero (r : Record) :
    (floorStds r).perturbed_original_ll_std ≠ 0
    ∧ (floorStds r).perturbed_sampled_ll_std ≠ 0 := by
  constructor <;>
    · simp only [floorStds]
      split <;> simp_all

theorem popVar_twin : popVar [(5 : ℚ), 5] = 0 := by
  norm_num [popVar, npMean]

theorem popVar_spread : popVar [(0 : ℚ), 2] = 1 := by
  norm_num [popVar, npMean]

theorem sampleVar_spread : sampleVar [(0 : ℚ), 2] = 2 := by
  norm_num [sampleVar, npMean]

theorem queryLls_twin : queryLls llConstFive [inputTwin] = some [recTwin] := by
  have h := npStd_of_popVar_eq_zero [(5 : ℚ), 5] popVar_twin
  simp [queryLls, queryLlsRecord, getLls, llConstFive, inputTwin, recTwin, h]
  norm_num [npMean]

theorem queryLls_single : queryLls llConstZero [inputSingle] = some [recSingle] := by
  simp [queryLls, queryLlsRecord, getLls, llConstZero, inputSingle, recSingle]
  norm_num [npMean]

theorem queryLls_spread : queryLls llZeroTwo [inputSpread] = some [recSpread] := by
  have h := npStd_of_sq [(0 : ℚ), 2] 1 (by norm_num) (by rw [popVar_spread]; norm_num)
  simp [queryLls, queryLlsRecord, getLls, llZeroTwo, inputSpread, recSpread, h]
  norm_num [npMean]

theorem queryLls_good : queryLls llFailBad [inputGood] = some [recGood] := by
  simp [queryLls, queryLlsRecord, getLls, llFailBad, inputGood, recGood]
  norm_num [npMean]

/-- Claim C1 is false as stated: for a Perturbation Set of two identical
scores (here both perturbation sets of `recTwin` score `[5, 5]`, a
sequence of length 2 with zero variance), the stored
`perturbed_*_ll_std` fields equal 0 after aggregation, not 1, and the
difference-criterion experiment leaves them 0. -/
theorem std_floor_only_z_counterexample :
    queryLls llConstFive [inputTwin] = some [recTwin]
    ∧ recTwin.all_perturbed_original_ll.length = 2
    ∧ popVar recTwin.all_perturbed_original_ll = 0
    ∧ recTwin.perturbed_original_ll_std = 0
    ∧ recTwin.perturbed_sampled_ll_std = 0
    ∧ (runPerturbationExperiment rocZero prZero [recTwin] "d" hpDefault
        "ds").raw_results = [recTwin] := by
  refine ⟨queryLls_twin, by simp [recTwin], ?_, by simp [recTwin], by simp [recTwin], ?_⟩
  · show popVar [(5 : ℚ), 5] = 0
    exact popVar_twin
  · simp [runPerturbationExperiment, classifyRecords]

/-- Claim C1 corrected: after aggregation by `query_lls`, a stored
`perturbed_*_ll_std` field equals 1 when its score sequence has fewer
than 2 elements, but a sequence of 2 or more elements with zero variance
is stored with std 0; that 0 is floored to 1 only by the z-score branch
of `run_perturbation_experiment` (whose mutated records are its raw
results), while the difference-criterion experiment keeps the records,
and hence the stored 0, unchanged. -/
theorem std_floor_characterization
    (ll : String → Option ℚ) (results : List InputRecord) (records : List Record)
    (roc : List ℚ → List ℚ → RocMetrics) (pm : List ℚ → List ℚ → PrMetrics)
    (hp : Hyperparameters) (ds : String)
    (h : queryLls ll results = some records) (r : Record) (hr : r ∈ records) :
    ((r.all_perturbed_original_ll.length < 2 → r.perturbed_original_ll_std = 1)
      ∧ (r.all_perturbed_sampled_ll.length < 2 → r.perturbed_sampled_ll_std = 1))
    ∧ ((2 ≤ r.all_perturbed_original_ll.length →
          popVar r.all_perturbed_original_ll = 0 → r.perturbed_original_ll_std = 0)
      ∧ (2 ≤ r.all_perturbed_sampled_ll.length →
          popVar r.all_perturbed_sampled_ll = 0 → r.perturbed_sampled_ll_std = 0))
    ∧ ((popVar r.all_perturbed_original_ll = 0 →
          (floorStds r).perturbed_original_ll_std = 1)
      ∧ (popVar r.all_perturbed_sampled_ll = 0 →
          (floorStds r).perturbed_sampled_ll_std = 1))
    ∧ floorStds r ∈ (runPerturbationExperiment roc pm records "z" hp ds).raw_results
    ∧ r ∈ (runPerturbationExperiment roc pm records "d" hp ds).raw_results := by
  obtain ⟨res, hres⟩ := queryLls_mem ll results records h r hr
  obtain ⟨hm1, hm2, hs1, hs2⟩ := queryLlsRecord_fields ll res r hres
  have hlt1 : r.all_perturbed_original_ll.length < 2 → r.perturbed_original_ll_std = 1 := by
    intro hlen
    rw [hs1, if_neg (by omega)]
  have hlt2 : r.all_perturbed_sampled_ll.length < 2 → r.perturbed_sampled_ll_std = 1 := by
    intro hlen
    rw [hs2, if_neg (by omega)]
  have hz1 : 2 ≤ r.all_perturbed_original_ll.length →
      popVar r.all_perturbed_original_ll = 0 → r.perturbed_original_ll_std = 0 := by
    intro hlen hvar
    rw [hs1, if_pos (by omega), npStd_of_popVar_eq_zero _ hvar]
  have hz2 : 2 ≤ r.all_perturbed_sampled_ll.length →
      popVar r.all_perturbed_sampled_ll = 0 → r.perturbed_sampled_ll_std = 0 := by
    intro hlen hvar
    rw [hs2, if_pos (by omega), npStd_of_popVar_eq_zero _ hvar]
  refine ⟨⟨hlt1, hlt2⟩, ⟨hz1, hz2⟩, ⟨?_, ?_⟩, ?_, ?_⟩
  · intro hvar
    rcases Nat.lt_or_ge r.all_perturbed_original_ll.length 2 with hlen | hlen
    · simp [floorStds, hlt1 hlen]
    · simp [floorStds, hz1 hlen hvar]
  · intro hvar
    rcases Nat.lt_or_ge r.all_perturbed_sampled_ll.length 2 with hlen | hlen
    · simp [floorStds, hlt2 hlen]
    · simp [floorStds, hz2 hlen hvar]
  · show floorStds r ∈ (classifyRecords "z" records).2
    simp only [classifyRecords]
    norm_num
    exact List.mem_map_of_mem floorStds hr
  · show r ∈ (classifyRecords "d" records).2
    simp only [classifyRecords]
    norm_num
    exact hr

/-- Witness for the corrected C1 theorem at a concrete input: for the
record aggregated from `inputTwin`, whose perturbation scores are the
zero-variance sequence `[5, 5]`, the z-score flooring turns the stored
std 0 into 1. -/
theorem std_floor_characterization_witness :
    (floorStds recTwin).perturbed_original_ll_std = 1 :=
  (std_floor_characterization llConstFive [inputTwin] [recTwin] rocZero prZero
    hpDefault "ds" queryLls_twin recTwin (by simp)).2.2.1.1
    (by rw [show recTwin.all_perturbed_original_ll = [(5 : ℚ), 5] from rfl]; exact popVar_twin)

/-- Claim C4 is false as stated: under `llFailBad` the record `inputGood`
is scoreable on its own, yet when it follows the failing record
`inputBad` in the batch, `query_lls` returns nothing at all — the
failure aborts the whole call instead of discarding only the failed
record and returning results for the remaining ones. -/
theorem query_lls_abort_counterexample :
    queryLls llFailBad [inputGood] = some [recGood]
    ∧ queryLls llFailBad [inputBad, inputGood] = none := by
  refine ⟨queryLls_good, ?_⟩
  have hbad : queryLlsRecord llFailBad inputBad = none :=
    queryLlsRecord_eq_none llFailBad inputBad "bad" (Or.inl rfl) (by simp [llFailBad])
  simp [queryLls, hbad]

/-- Claim C4 corrected: if the Querier raises `QueryError` on any single
text of any record in the batch, the whole `query_lls` call fails — the
error propagates out of the unguarded loop, no further records are
processed and no results are returned for any record; skipping or
aborting is the caller's decision. -/
theorem query_lls_fail_propagates
    (ll : String → Option ℚ) (results : List InputRecord)
    (res : InputRecord) (hres : res ∈ results) (t : String)
    (ht : t = res.original ∨ t = res.sampled
      ∨ t ∈ res.perturbed_original ∨ t ∈ res.perturbed_sampled)
    (hfail : ll t = none) :
    queryLls ll results = none :=
  queryLls_eq_none ll results res hres (queryLlsRecord_eq_none ll res t ht hfail)

/-- Witness for the corrected C4 theorem at a concrete input: a batch
whose only record has a failing original text yields no results. -/
theorem query_lls_fail_propagates_witness :
    queryLls llFailBad [inputBad] = none :=
  query_lls_fail_propagates llFailBad [inputBad] inputBad (by simp) "bad"
    (Or.inl rfl) (by simp [llFailBad])

/-- Claim C5 is false as stated: running the z-score experiment on the
fully populated record `recTwin` (whose stored std fields are 0) hands
back mutated records — the std fields have been floored to 1 in place —
so the input records are not left unchanged under every criterion. -/
theorem records_mutated_counterexample :
    (runPerturbationExperiment rocZero prZero [recTwin] "z" hpDefault
        "ds").raw_results ≠ [recTwin]
    ∧ (runPerturbationExperiment rocZero prZero [recTwin] "z" hpDefault
        "ds").raw_results = [floorStds recTwin]
    ∧ (floorStds recTwin).perturbed_original_ll_std = 1
    ∧ recTwin.perturbed_original_ll_std = 0 := by
  have hraw : (runPerturbationExperiment rocZero prZero [recTwin] "z" hpDefault
      "ds").raw_results = [floorStds recTwin] := by
    simp [runPerturbationExperiment, classifyRecords]
  have hne : floorStds recTwin ≠ recTwin := by
    intro hEq
    have hstd : (floorStds recTwin).perturbed_original_ll_std
        = recTwin.perturbed_original_ll_std := by rw [hEq]
    rw [show (floorStds recTwin).perturbed_original_ll_std = 1 by
          simp [floorStds, recTwin],
        show recTwin.perturbed_original_ll_std = 0 from rfl] at hstd
    norm_num at hstd
  refine ⟨?_, hraw, by simp [floorStds, recTwin], by simp [recTwin]⟩
  rw [hraw]
  simp [hne]

/-- Claim C5 corrected: `run_perturbation_experiment` leaves the records
unchanged under the difference criterion and under any unrecognised
criterion; under the z-score criterion the records it hands back are the
input records with each zero `perturbed_*_ll_std` field floored to 1 in
place — and a record whose std fields are both nonzero is unchanged even
there. -/
theorem raw_results_characterization
    (roc : List ℚ → List ℚ → RocMetrics) (pm : List ℚ → List ℚ → PrMetrics)
    (records : List Record) (hp : Hyperparameters) (ds : String) (c : String) :
    (c ≠ "z" → (runPerturbationExperiment roc pm records c hp ds).raw_results = records)
    ∧ (runPerturbationExperiment roc pm records "z" hp ds).raw_results
        = records.map floorStds
    ∧ (∀ r ∈ records, r.perturbed_original_ll_std ≠ 0 →
        r.perturbed_sampled_ll_std ≠ 0 → floorStds r = r) := by
  refine ⟨?_, by simp [runPerturbationExperiment, classifyRecords], ?_⟩
  · intro hc
    show (classifyRecords c records).2 = records
    rw [classifyRecords]
    by_cases hd : c = "d"
    · rw [if_pos hd]
    · rw [if_neg hd, if_neg hc]
  · intro r _ h1 h2
    simp [floorStds, h1, h2]

/-- Witness for the corrected C5 theorem at a concrete input: the
difference-criterion experiment returns the input record untouched. -/
theorem raw_results_characterization_witness :
    (runPerturbationExperiment rocZero prZero [recTwin] "d" hpDefault
      "ds").raw_results = [recTwin] :=
  (raw_results_characterization rocZero prZero [recTwin] hpDefault "ds" "d").1
    (by simp)

/-- Claim C2 (confirmed): under the z-score criterion the prediction for
each record is the log-likelihood of the passage minus the mean of its
perturbations' log-likelihoods, divided by the floored std — the
original passage feeding the real population and the sampled passage the
samples population — and the floored std, hence the divisor, is never
zero. -/
theorem zscore_predictions_eq
    (ll : String → Option ℚ) (results : List InputRecord) (records : List Record)
    (roc : List ℚ → List ℚ → RocMetrics) (pm : List ℚ → List ℚ → PrMetrics)
    (hp : Hyperparameters) (ds : String)
    (h : queryLls ll results = some records)
    (hne : ∀ r ∈ records,
      r.all_perturbed_original_ll ≠ [] ∧ r.all_perturbed_sampled_ll ≠ []) :
    (runPerturbationExperiment roc pm records "z" hp ds).predictions.real
      = records.map (fun r =>
          (r.original_ll - npMean r.all_perturbed_original_ll)
            / (floorStds r).perturbed_original_ll_std)
    ∧ (runPerturbationExperiment roc pm records "z" hp ds).predictions.samples
      = records.map (fun r =>
          (r.sampled_ll - npMean r.all_perturbed_sampled_ll)
            / (floorStds r).perturbed_sampled_ll_std)
    ∧ ∀ r ∈ records, (floorStds r).perturbed_original_ll_std ≠ 0
        ∧ (floorStds r).perturbed_sampled_ll_std ≠ 0 := by
  refine ⟨?_, ?_, fun r _ => floorStds_std_ne_zero r⟩
  · show ((records.map floorStds).map (fun res =>
        (res.original_ll - res.perturbed_original_ll) / res.perturbed_original_ll_std))
      = _
    rw [List.map_map]
    refine List.map_congr_left ?_
    intro r hr
    obtain ⟨res, hres⟩ := queryLls_mem ll results records h r hr
    simp only [Function.comp_apply, floorStds]
    rw [(queryLlsRecord_fields ll res r hres).1]
  · show ((records.map floorStds).map (fun res =>
        (res.sampled_ll - res.perturbed_sampled_ll) / res.perturbed_sampled_ll_std))
      = _
    rw [List.map_map]
    refine List.map_congr_left ?_
    intro r hr
    obtain ⟨res, hres⟩ := queryLls_mem ll results records h r hr
    simp only [Function.comp_apply, floorStds]
    rw [(queryLlsRecord_fields ll res r hres).2.1]

/-- Witness for the C2 theorem at a concrete input: the z-score
experiment on the record aggregated from `inputSingle`. -/
theorem zscore_predictions_eq_witness :
    (runPerturbationExperiment rocZero prZero [recSingle] "z" hpDefault
        "ds").predictions.real
      = [recSingle].map (fun r =>
          (r.original_ll - npMean r.all_perturbed_original_ll)
            / (floorStds r).perturbed_original_ll_std) :=
  (zscore_predictions_eq llConstZero [inputSingle] [recSingle] rocZero prZero
    hpDefault "ds" queryLls_single (by simp [recSingle])).1

/-- Claim C3 (confirmed): under the difference criterion the prediction
for each record is the log-likelihood of the passage minus the
arithmetic mean of the log-likelihoods of that passage's perturbations:
`original_ll - mean(all_perturbed_original_ll)` for the real population
and `sampled_ll - mean(all_perturbed_sampled_ll)` for the samples
population. -/
theorem difference_predictions_eq
    (ll : String → Option ℚ) (results : List InputRecord) (records : List Record)
    (roc : List ℚ → List ℚ → RocMetrics) (pm : List ℚ → List ℚ → PrMetrics)
    (hp : Hyperparameters) (ds : String)
    (h : queryLls ll results = some records)
    (hne : ∀ r ∈ records,
      r.all_perturbed_original_ll ≠ [] ∧ r.all_perturbed_sampled_ll ≠ []) :
    (runPerturbationExperiment roc pm records "d" hp ds).predictions.real
      = records.map (fun r => r.original_ll - npMean r.all_perturbed_original_ll)
    ∧ (runPerturbationExperiment roc pm records "d" hp ds).predictions.samples
      = records.map (fun r => r.sampled_ll - npMean r.all_perturbed_sampled_ll) := by
  constructor
  · show (records.map (fun res => res.original_ll - res.perturbed_original_ll)) = _
    refine List.map_congr_left ?_
    intro r hr
    obtain ⟨res, hres⟩ := queryLls_mem ll results records h r hr
    rw [(queryLlsRecord_fields ll res r hres).1]
  · show (records.map (fun res => res.sampled_ll - res.perturbed_sampled_ll)) = _
    refine List.map_congr_left ?_
    intro r hr
    obtain ⟨res, hres⟩ := queryLls_mem ll results records h r hr
    rw [(queryLlsRecord_fields ll res r hres).2.1]

/-- Witness for the C3 theorem at a concrete input: the
difference-criterion experiment on the record aggregated from
`inputSingle`. -/
theorem difference_predictions_eq_witness :
    (runPerturbationExperiment rocZero prZero [recSingle] "d" hpDefault
        "ds").predictions.real
      = [recSingle].map (fun r => r.original_ll - npMean r.all_perturbed_original_ll) :=
  (difference_predictions_eq llConstZero [inputSingle] [recSingle] rocZero prZero
    hpDefault "ds" queryLls_single (by simp [recSingle])).1

theorem findSome?_none_of_all_none {α β : Type} (f : α → Option β) (l : List α)
    (h : ∀ x, f x = none) : l.findSome? f = none := by
  induction l with
  | nil => rfl
  | cons a rest ih => rw [List.findSome?_cons, h a, ih]

/-- Claim C6 (confirmed): if every masking and infill round fails the
validity check, each variant falls back to the original unmasked passage,
so all `n_variants` returned entries equal the original passage and the
Perturber returns normally. -/
theorem perturb_fallback (passage : String) (attempt : Nat → Nat → Option String)
    (n_variants n_rounds : Nat) (hfail : ∀ v r, attempt v r = none) :
    (∀ v, perturbVariant passage (attempt v) n_rounds = passage)
    ∧ perturbPassage passage attempt n_variants n_rounds
        = List.replicate n_variants passage
    ∧ (perturbPassage passage attempt n_variants n_rounds).length = n_variants := by
  have hv : ∀ v, perturbVariant passage (attempt v) n_rounds = passage := by
    intro v
    rw [perturbVariant, findSome?_none_of_all_none (attempt v) _ (hfail v)]
  have hp : perturbPassage passage attempt n_variants n_rounds
      = List.replicate n_variants passage := by
    rw [perturbPassage, List.map_congr_left (fun v _ => hv v)]
    simp
  exact ⟨hv, hp, by rw [hp, List.length_replicate]⟩

/-- Witness for the C6 theorem at a concrete input: with an infill that
always fails, three variants over two rounds all equal the passage. -/
theorem perturb_fallback_witness :
    perturbPassage "a passage" (fun _ _ => none) 3 2
      = List.replicate 3 "a passage" :=
  (perturb_fallback "a passage" (fun _ _ => none) 3 2 (fun _ _ => rfl)).2.1

/-- Claim C7 (confirmed): under the difference criterion the real score
is strictly increasing in `original_ll` with every other field held
fixed: of two otherwise identical records, the one with the larger
`original_ll` receives the strictly larger real prediction. -/
theorem difference_monotone (r : Record) (x y : ℚ)
    (roc : List ℚ → List ℚ → RocMetrics) (pm : List ℚ → List ℚ → PrMetrics)
    (hp : Hyperparameters) (ds : String) (hxy : x < y) :
    ((runPerturbationExperiment roc pm [{ r with original_ll := x }] "d" hp
        ds).predictions.real.getD 0 0)
    < ((runPerturbationExperiment roc pm [{ r with original_ll := y }] "d" hp
        ds).predictions.real.getD 0 0) := by
  show ((classifyRecords "d" _).1.real.getD 0 0) < ((classifyRecords "d" _).1.real.getD 0 0)
  simp only [classifyRecords, if_pos rfl, List.map_cons, List.map_nil,
    List.getD_cons_zero]
  exact sub_lt_sub_right hxy _

/-- Witness for the C7 theorem at a concrete input: raising
`original_ll` from 0 to 1 on `recSingle` raises the real prediction. -/
theorem difference_monotone_witness :
    ((runPerturbationExperiment rocZero prZero [{ recSingle with original_ll := 0 }]
        "d" hpDefault "ds").predictions.real.getD 0 0)
    < ((runPerturbationExperiment rocZero prZero [{ recSingle with original_ll := 1 }]
        "d" hpDefault "ds").predictions.real.getD 0 0) :=
  difference_monotone recSingle 0 1 rocZero prZero hpDefault "ds" (by norm_num)

/-- Claim C8 (confirmed): the classification stage is deterministic —
`run_perturbation_experiment` is a pure function of its records,
criterion, hyperparameters and dataset name, so two runs on equal inputs
produce equal prediction populations and equal experiment outcomes. -/
theorem experiment_deterministic
    (roc : List ℚ → List ℚ → RocMetrics) (pm : List ℚ → List ℚ → PrMetrics)
    (results₁ results₂ : List Record) (c₁ c₂ : String)
    (hp₁ hp₂ : Hyperparameters) (ds₁ ds₂ : String)
    (hres : results₁ = results₂) (hc : c₁ = c₂) (hhp : hp₁ = hp₂)
    (hds : ds₁ = ds₂) :
    runPerturbationExperiment roc pm results₁ c₁ hp₁ ds₁
      = runPerturbationExperiment roc pm results₂ c₂ hp₂ ds₂
    ∧ (runPerturbationExperiment roc pm results₁ c₁ hp₁ ds₁).predictions
      = (runPerturbationExperiment roc pm results₂ c₂ hp₂ ds₂).predictions := by
  subst hres hc hhp hds
  exact ⟨rfl, rfl⟩

/-- Witness for the C8 theorem at a concrete input. -/
theorem experiment_deterministic_witness :
    runPerturbationExperiment rocZero prZero [recSingle] "d" hpDefault "ds"
      = runPerturbationExperiment rocZero prZero [recSingle] "d" hpDefault "ds" :=
  (experiment_deterministic rocZero prZero [recSingle] [recSingle] "d" "d"
    hpDefault hpDefault "ds" "ds" rfl rfl rfl rfl).1

/-- Claim C10 (confirmed): for a criterion other than d and z,
`run_perturbation_experiment` returns normally with both prediction
populations empty — every record is silently skipped — while for d and
for z each population has exactly one prediction per input record. -/
theorem criterion_dispatch
    (roc : List ℚ → List ℚ → RocMetrics) (pm : List ℚ → List ℚ → PrMetrics)
    (records : List Record) (hp : Hyperparameters) (ds : String) (c : String)
    (hne : records ≠ []) (hcd : c ≠ "d") (hcz : c ≠ "z") :
    ((runPerturbationExperiment roc pm records c hp ds).predictions.real = []
      ∧ (runPerturbationExperiment roc pm records c hp ds).predictions.samples = [])
    ∧ ((runPerturbationExperiment roc pm records "d" hp ds).predictions.real.length
          = records.length
      ∧ (runPerturbationExperiment roc pm records "d" hp ds).predictions.samples.length
          = records.length)
    ∧ ((runPerturbationExperiment roc pm records "z" hp ds).predictions.real.length
          = records.length
      ∧ (runPerturbationExperiment roc pm records "z" hp ds).predictions.samples.length
          = records.length) := by
  refine ⟨⟨?_, ?_⟩, ⟨?_, ?_⟩, ⟨?_, ?_⟩⟩ <;>
    simp [runPerturbationExperiment, classifyRecords, hcd, hcz]

/-- Witness for the C10 theorem at a concrete input: the criterion "x"
is silently skipped. -/
theorem criterion_dispatch_witness :
    (runPerturbationExperiment rocZero prZero [recSingle] "x" hpDefault
        "ds").predictions.real = [] :=
  (criterion_dispatch rocZero prZero [recSingle] hpDefault "ds" "x" (by simp)
    (by simp) (by simp)).1.1

theorem popVar_lt_sampleVar (l : List ℚ) (h2 : 2 ≤ l.length) (hv : popVar l ≠ 0) :
    popVar l < sampleVar l := by
  have hS0 : 0 ≤ (l.map (fun x => (x - npMean l) * (x - npMean l))).sum := by
    apply List.sum_nonneg
    intro x hx
    obtain ⟨y, _, rfl⟩ := List.mem_map.mp hx
    exact mul_self_nonneg _
  have hpop : popVar l
      = (l.map (fun x => (x - npMean l) * (x - npMean l))).sum / (l.length : ℚ) := by
    rw [popVar, npMean, List.length_map]
  have hlen : (2 : ℚ) ≤ (l.length : ℚ) := by exact_mod_cast h2
  have hSpos : 0 < (l.map (fun x => (x - npMean l) * (x - npMean l))).sum := by
    rcases lt_or_eq_of_le hS0 with hlt | heq
    · exact hlt
    · exact absurd (by rw [hpop, ← heq, zero_div]) hv
  rw [hpop, sampleVar]
  apply div_lt_div_of_pos_left hSpos
  · linarith
  · linarith

theorem queryLlsRecord_spread : queryLlsRecord llZeroTwo inputSpread = some recSpread := by
  have h := npStd_of_sq [(0 : ℚ), 2] 1 (by norm_num) (by rw [popVar_spread]; norm_num)
  simp [queryLlsRecord, getLls, llZeroTwo, inputSpread, recSpread, h]
  norm_num [npMean]

/-- Claim C9 is false as stated: the record aggregated from
`inputSpread` has perturbation scores `[0, 2]` (two elements), whose
sample variance is 2, yet the stored `perturbed_original_ll_std` is 1 —
the population standard deviation — and 1 is not the sample standard
deviation, the square root of 2. -/
theorem std_not_sample_std_counterexample :
    queryLls llZeroTwo [inputSpread] = some [recSpread]
    ∧ recSpread.all_perturbed_original_ll.length = 2
    ∧ sampleVar recSpread.all_perturbed_original_ll = 2
    ∧ recSpread.perturbed_original_ll_std = 1
    ∧ ((recSpread.perturbed_original_ll_std : ℝ)
        ≠ Real.sqrt ((sampleVar recSpread.all_perturbed_original_ll : ℚ) : ℝ)) := by
  have hsv : sampleVar recSpread.all_perturbed_original_ll = 2 := by
    show sampleVar [(0 : ℚ), 2] = 2
    exact sampleVar_spread
  refine ⟨queryLls_spread, by simp [recSpread], hsv, by simp [recSpread], ?_⟩
  rw [show recSpread.perturbed_original_ll_std = 1 from rfl, hsv]
  have h1 : Real.sqrt 1 < Real.sqrt 2 := Real.sqrt_lt_sqrt (by norm_num) (by norm_num)
  rw [Real.sqrt_one] at h1
  rw [show ((1 : ℚ) : ℝ) = 1 by norm_num, show (((2 : ℚ) : ℝ)) = 2 by norm_num]
  exact ne_of_lt h1

/-- Claim C9 corrected: for a score sequence with at least 2 elements
the stored `perturbed_*_ll_std` field is the population standard
deviation — NumPy's default, with the n denominator — and not the sample
standard deviation: whenever the variance is nonzero, the population
variance is strictly below the sample variance, so their square roots
differ. -/
theorem std_is_population_std
    (ll : String → Option ℚ) (res : InputRecord) (r : Record)
    (h : queryLlsRecord ll res = some r)
    (h2o : 2 ≤ r.all_perturbed_original_ll.length)
    (h2s : 2 ≤ r.all_perturbed_sampled_ll.length)
    (s t : ℚ) (hs : 0 ≤ s) (ht : 0 ≤ t)
    (hss : s * s = popVar r.all_perturbed_original_ll)
    (htt : t * t = popVar r.all_perturbed_sampled_ll) :
    (r.perturbed_original_ll_std = s ∧ r.perturbed_sampled_ll_std = t)
    ∧ ((s : ℝ) = Real.sqrt ((popVar r.all_perturbed_original_ll : ℚ) : ℝ)
      ∧ (t : ℝ) = Real.sqrt ((popVar r.all_perturbed_sampled_ll : ℚ) : ℝ))
    ∧ (popVar r.all_perturbed_original_ll ≠ 0 →
        (s : ℝ) ≠ Real.sqrt ((sampleVar r.all_perturbed_original_ll : ℚ) : ℝ))
    ∧ (popVar r.all_perturbed_sampled_ll ≠ 0 →
        (t : ℝ) ≠ Real.sqrt ((sampleVar r.all_perturbed_sampled_ll : ℚ) : ℝ)) := by
  obtain ⟨hm1, hm2, hsig1, hsig2⟩ := queryLlsRecord_fields ll res r h
  have hstdo : r.perturbed_original_ll_std = s := by
    rw [hsig1, if_pos (by omega), npStd_of_sq _ s hs hss]
  have hstds : r.perturbed_sampled_ll_std = t := by
    rw [hsig2, if_pos (by omega), npStd_of_sq _ t ht htt]
  have hsqrt : ∀ (u : ℚ), 0 ≤ u → ∀ q : ℚ, u * u = q →
      (u : ℝ) = Real.sqrt ((q : ℚ) : ℝ) := by
    intro u hu q hq
    rw [← hq]
    push_cast
    rw [Real.sqrt_mul_self (by exact_mod_cast hu)]
  have hneq : ∀ (u : ℚ), 0 ≤ u → ∀ lst : List ℚ, 2 ≤ lst.length →
      u * u = popVar lst → popVar lst ≠ 0 →
      (u : ℝ) ≠ Real.sqrt ((sampleVar lst : ℚ) : ℝ) := by
    intro u hu lst hlen hsq hvz
    have hlt := popVar_lt_sampleVar lst hlen hvz
    have h0 : (0 : ℝ) ≤ ((popVar lst : ℚ) : ℝ) := by
      rw [← hsq]
      push_cast
      exact mul_self_nonneg _
    have hmono : Real.sqrt ((popVar lst : ℚ) : ℝ)
        < Real.sqrt ((sampleVar lst : ℚ) : ℝ) :=
      Real.sqrt_lt_sqrt h0 (by exact_mod_cast hlt)
    rw [← hsqrt u hu _ hsq] at hmono
    exact ne_of_lt hmono
  exact ⟨⟨hstdo, hstds⟩, ⟨hsqrt s hs _ hss, hsqrt t ht _ htt⟩,
    hneq s hs _ h2o hss, hneq t ht _ h2s htt⟩

/-- Witness for the corrected C9 theorem at a concrete input: for the
record aggregated from `inputSpread`, with scores `[0, 2]` of population
variance 1, the stored std fields equal the population standard
deviation 1. -/
theorem std_is_population_std_witness :
    recSpread.perturbed_original_ll_std = 1
    ∧ recSpread.perturbed_sampled_ll_std = 1 :=
  (std_is_population_std llZeroTwo inputSpread recSpread queryLlsRecord_spread
    (by simp [recSpread]) (by simp [recSpread]) 1 1 (by norm_num) (by norm_num)
    (by rw [show recSpread.all_perturbed_original_ll = [(0 : ℚ), 2] from rfl,
            popVar_spread]; norm_num)
    (by rw [show recSpread.all_perturbed_sampled_ll = [(0 : ℚ), 2] from rfl,
            popVar_spread]; norm_num)).1
